import Mathlib

set_option autoImplicit false

/-!
Verification of the list container of the foreign-object ownership framework
(src/src/objects/list.rs) against its specification.

The foreign runtime's state is modelled explicitly: a heap of reference-counted
objects addressed by raw handles (natural numbers, with 0 the null handle), an
error indicator, the access token's tracked arena, and an allocation-failure
mode used to exercise the out-of-memory paths. Foreign primitives that live
behind the trusted C function table, and host helpers that are not part of the
container source itself, are modelled from the specification (sections 4, 6
and 7); each such definition says so in its doc comment. Everything else is a
direct translation of the Rust source.
-/

/-- The null raw foreign handle. Raw handles are naturals: 0 is null and
allocated objects get ids 1, 2, … -/
def nullPtr : Nat := 0

/-- The payload of a foreign object: either a converted scalar host value or a
sequence of raw handles (the growable indexed array of strong references). -/
inductive PyObjData where
  | int (v : Int)
  | list (items : List Nat)
deriving DecidableEq

/-- A heap entry: payload plus its foreign reference count. The count is an
integer so that an over-release is visible as a drop below the true value. -/
structure PyObjEntry where
  data : PyObjData
  refcnt : Int
deriving DecidableEq

/-- The modelled foreign-runtime state: the object heap (handle n lives at
index n-1), the error-indicator side channel, the access token's tracked
arena, and a flag that makes the allocator fail (out-of-memory mode). -/
structure PyState where
  objs : List PyObjEntry
  errIndicator : Option Nat
  arena : List Nat
  allocFail : Bool
deriving DecidableEq

def memoryError : Nat := 1
def indexError : Nat := 2
def typeMismatchError : Nat := 3
def systemError : Nat := 4

def PyState.lookup (s : PyState) (p : Nat) : Option PyObjEntry :=
  if p = 0 then none else s.objs[p - 1]?

def PyState.setObj (s : PyState) (p : Nat) (e : PyObjEntry) : PyState :=
  { s with objs := s.objs.set (p - 1) e }

/-- increment-refcount: a no-op on the null handle or an unallocated id. -/
def PyState.incref (s : PyState) (p : Nat) : PyState :=
  match s.lookup p with
  | some e => s.setObj p { e with refcnt := e.refcnt + 1 }
  | none => s

/-- decrement-refcount: a no-op on the null handle or an unallocated id.
Deallocation at count zero is the foreign runtime's own business and is not
modelled as removal; the entry stays so counts remain observable. -/
def PyState.decref (s : PyState) (p : Nat) : PyState :=
  match s.lookup p with
  | some e => s.setObj p { e with refcnt := e.refcnt - 1 }
  | none => s

/-- The reference count currently backing a handle (0 for null/unallocated). -/
def PyState.rc (s : PyState) (q : Nat) : Int :=
  match s.lookup q with
  | some e => e.refcnt
  | none => 0

/-- Allocate a fresh object with reference count 1; in allocation-failure mode
return null with the error indicator set to an out-of-memory error. -/
def PyState.alloc (s : PyState) (d : PyObjData) : PyState × Nat :=
  if s.allocFail then ({ s with errIndicator := some memoryError }, nullPtr)
  else ({ s with objs := s.objs ++ [⟨d, 1⟩] }, s.objs.length + 1)

/-- Modelled from the spec: allocate-sequence(length) → raw handle or null on
error (§6). A fresh sequence of length n has n empty (null) slots, to be
filled by the per-element stores of the construction loop. -/
def PyList_New (s : PyState) (len : Int) : PyState × Nat :=
  if len < 0 then ({ s with errIndicator := some systemError }, nullPtr)
  else s.alloc (.list (List.replicate len.toNat nullPtr))

/-- Modelled from the spec: sequence-length(raw handle) → signed size (§6);
-1 on a handle that is not a sequence. -/
def PyList_Size (s : PyState) (p : Nat) : Int :=
  match s.lookup p with
  | some ⟨.list items, _⟩ => (items.length : Int)
  | _ => -1

/-- Modelled from the spec: sequence-get(raw handle, index) → borrowed raw
handle, with an unchecked index whose out-of-range use is a contract
violation (§6). The violation is modelled by returning the null handle, which
the host-side borrow wrapper treats as fatal. No reference count changes. -/
def PyList_GetItem (s : PyState) (p : Nat) (i : Int) : Nat :=
  match s.lookup p with
  | some ⟨.list items, _⟩ =>
      if 0 ≤ i ∧ i < (items.length : Int) then (items[i.toNat]?).getD nullPtr
      else nullPtr
  | _ => nullPtr

/-- Modelled from the spec: sequence-set(raw handle, index, new raw handle
with ownership transferred in) → status code 0, or -1 with the error
indicator set (§6). On success the slot is overwritten with the new handle
and the strong reference previously occupying the slot is released (§4.5);
on failure the transferred-in reference is released by the callee. -/
def PyList_SetItem (s : PyState) (p : Nat) (i : Int) (v : Nat) : PyState × Int :=
  match s.lookup p with
  | some ⟨.list items, rc⟩ =>
      if 0 ≤ i ∧ i < (items.length : Int) then
        let old := (items[i.toNat]?).getD nullPtr
        ((s.setObj p ⟨.list (items.set i.toNat v), rc⟩).decref old, 0)
      else ({ s.decref v with errIndicator := some indexError }, -1)
  | _ => ({ s.decref v with errIndicator := some systemError }, -1)

/-- Modelled from the spec: sequence-insert(raw handle, index, new raw handle
transferred in) → status code (§6); an out-of-range index reports an
index-range error through the error indicator (§4.5). Valid insertion
positions are 0 up to and including the current length. -/
def PyList_Insert (s : PyState) (p : Nat) (i : Int) (v : Nat) : PyState × Int :=
  match s.lookup p with
  | some ⟨.list items, rc⟩ =>
      if 0 ≤ i ∧ i ≤ (items.length : Int) then
        (s.setObj p ⟨.list (items.insertIdx i.toNat v), rc⟩, 0)
      else ({ s.decref v with errIndicator := some indexError }, -1)
  | _ => ({ s.decref v with errIndicator := some systemError }, -1)

/-- Modelled from the spec: conversion of a supported scalar host value into a
new owned foreign handle (conversion protocol, §4.4), here already composed
with into_raw. In allocation-failure mode it yields null with the error
indicator set. This models the source's per-element
e.to_object(py).into_ptr(). -/
def toPyInt (s : PyState) (x : Int) : PyState × Nat :=
  s.alloc (.int x)

/-- The per-element population loop shared by PyList::new, ToPyObject for [T]
and IntoPyObject for Vec<T> (src/src/objects/list.rs:23-26, 126-129,
149-152): for each element in order, convert it to an owned handle and
transfer it into the sequence slot at the matching index. The status code of
each store is discarded, exactly as in the source, where the
ffi::PyList_SetItem(ptr, i, obj) result is dropped. -/
def populate (s : PyState) (p : Nat) (i : Nat) (elems : List Int) : PyState :=
  match elems with
  | [] => s
  | e :: rest =>
      let c := toPyInt s e
      let r := PyList_SetItem c.1 p (i : Int) c.2
      populate r.1 p (i + 1) rest

/-- PyList::new (src/src/objects/list.rs:20-29): allocate a sequence of the
slice's length, populate it, and wrap the raw allocation result with
unchecked_cast_from_ptr, which performs no null check (modelled from the
spec: the unchecked cast wraps whatever raw handle it is given). -/
def PyList.new (s : PyState) (elements : List Int) : PyState × Nat :=
  let a := PyList_New s (elements.length : Int)
  (populate a.1 a.2 0 elements, a.2)

/-- PyList::empty (src/src/objects/list.rs:32-36): allocate a zero-length
sequence and wrap it without a null check. -/
def PyList.empty (s : PyState) : PyState × Nat :=
  PyList_New s 0

/-- PyList::len (src/src/objects/list.rs:40-45): delegate to the foreign
length query and cast the signed size to usize; per the source comment, a
non-negative signed size always fits. -/
def PyList.len (s : PyState) (p : Nat) : Nat :=
  (PyList_Size s p).toNat

/-- PyList::get_item (src/src/objects/list.rs:50-56): unchecked foreign
fetch, then PyObject::from_borrowed_ptr and track_object, which are not
under src/ and are modelled from the spec (§4.2, §4.3, §4.5): a null raw
handle is fatal (modelled as none); otherwise the borrowed handle is promoted
to an owned one (count incremented) and parked in the token's tracked arena,
and the tracked reference is returned. -/
def PyList.get_item (s : PyState) (p : Nat) (index : Int) : Option (PyState × Nat) :=
  let q := PyList_GetItem s p index
  if q = nullPtr then none
  else
    let s1 := s.incref q
    some ({ s1 with arena := s1.arena ++ [q] }, q)

/-- err::error_on_minusone (not under src/). Modelled from the spec (§7): a
status code of -1 wraps the current error-indicator state into a structured
host error and clears the indicator; any other status is success. -/
def error_on_minusone (s : PyState) (code : Int) : PyState × Except Nat Unit :=
  if code = -1 then ({ s with errIndicator := none }, .error (s.errIndicator.getD 0))
  else (s, .ok ())

/-- PyList::set_item (src/src/objects/list.rs:71-78). The conversion wrapper
with_borrowed_ptr is not under src/ and is modelled from the spec (§4.4,
§4.5): convert the value to a handle, then replace the sequence slot at the
index with it, ownership transferred into the slot and the previous occupant
released; the status code goes through error_on_minusone. -/
def PyList.set_item (s : PyState) (p : Nat) (index : Int) (item : Int) :
    PyState × Except Nat Unit :=
  let c := toPyInt s item
  let r := PyList_SetItem c.1 p index c.2
  error_on_minusone r.1 r.2

/-- PyList::insert_item (src/src/objects/list.rs:83-90): same shape as
set_item, delegating to the foreign insert primitive. -/
def PyList.insert_item (s : PyState) (p : Nat) (index : Int) (item : Int) :
    PyState × Except Nat Unit :=
  let c := toPyInt s item
  let r := PyList_Insert c.1 p index c.2
  error_on_minusone r.1 r.2

/-- The iterator state of PyList::iter (src/src/objects/list.rs:99-102): the
list handle and a cursor. -/
structure PyListIterator where
  list : Nat
  index : Int
deriving DecidableEq

/-- PyList::iter (src/src/objects/list.rs:92-95): cursor starts at 0. -/
def PyList.iter (p : Nat) : PyListIterator :=
  ⟨p, 0⟩

/-- Outcome of one iterator step: an element together with the new state and
advanced iterator, exhaustion, or the fatal path inside get_item. -/
inductive IterStep where
  | yield (s : PyState) (item : Nat) (it : PyListIterator)
  | done
  | fault
deriving DecidableEq

/-- PyListIterator::next (src/src/objects/list.rs:104-120): re-query len() on
every call; if the cursor is below the current length, fetch through
get_item (whose fatal path surfaces as fault), advance the cursor and yield
the element; otherwise the iterator is exhausted. -/
def PyListIterator.next (s : PyState) (it : PyListIterator) : IterStep :=
  if it.index < ((PyList.len s it.list : Nat) : Int) then
    match PyList.get_item s it.list it.index with
    | some r => .yield r.1 r.2 ⟨it.list, it.index + 1⟩
    | none => .fault
  else .done

/-- Drive the iterator: collect the yielded raw handles, stopping on
exhaustion, on the fatal path, or when the fuel runs out. -/
def runIter (s : PyState) (it : PyListIterator) : Nat → List Nat
  | 0 => []
  | fuel + 1 =>
      match PyListIterator.next s it with
      | .yield s1 q it1 => q :: runIter s1 it1 fuel
      | .done => []
      | .fault => []

/-- ToPyObject for [T], to_object (src/src/objects/list.rs:122-134):
allocate, populate with every per-element store status discarded, then
PyObject::from_owned_ptr_or_panic, modelled from the spec's null-check
discipline (§4.2): a null handle is fatal, modelled as none. -/
def sliceToObject (s : PyState) (v : List Int) : PyState × Option Nat :=
  let a := PyList_New s (v.length : Int)
  let s2 := populate a.1 a.2 0 v
  (s2, if a.2 = nullPtr then none else some a.2)

/-- ToPyObject for Vec<T>, to_object (src/src/objects/list.rs:137-142):
delegates to the slice implementation. -/
def vecToObject (s : PyState) (v : List Int) : PyState × Option Nat :=
  sliceToObject s v

/-- IntoPyObject for Vec<T>, into_object (src/src/objects/list.rs:144-156):
the same construction, consuming the vector (an element-wise move, which for
scalar elements coincides with the borrowing conversion), with the same
panic-on-null wrapping of the allocation result. -/
def vecIntoObject (s : PyState) (v : List Int) : PyState × Option Nat :=
  let a := PyList_New s (v.length : Int)
  let s2 := populate a.1 a.2 0 v
  (s2, if a.2 = nullPtr then none else some a.2)

/-- Modelled from the spec: extraction of a scalar host value from a foreign
handle, type-checking the foreign object's kind first and failing with a
kind-mismatch error otherwise (§4.4). -/
def extractInt (s : PyState) (p : Nat) : Except Nat Int :=
  match s.lookup p with
  | some ⟨.int v, _⟩ => .ok v
  | _ => .error typeMismatchError

/-- Modelled from the spec: extraction of a host sequence from a foreign
sequence handle: kind-check, then read every element back in index order
(§4.4). -/
def extractIntList (s : PyState) (p : Nat) : Except Nat (List Int) :=
  match s.lookup p with
  | some ⟨.list items, _⟩ => items.mapM (extractInt s)
  | _ => .error typeMismatchError

/-- Modelled from the spec: the construction contract of §4.4/§4.5 taken at
its word — allocate, then populate in ascending index order, abandoning the
remaining construction and propagating a structured error as soon as the
allocation, a per-element conversion, or a per-element store fails. This is
the reference definition the code's construction is compared against. -/
def specListBuildLoop (s : PyState) (p : Nat) (i : Nat) (elems : List Int) :
    PyState × Except Nat Unit :=
  match elems with
  | [] => (s, .ok ())
  | e :: rest =>
      let c := toPyInt s e
      if c.2 = nullPtr then
        ({ c.1 with errIndicator := none }, .error (c.1.errIndicator.getD 0))
      else
        let r := PyList_SetItem c.1 p (i : Int) c.2
        match error_on_minusone r.1 r.2 with
        | (s1, .error err) => (s1, .error err)
        | (s1, .ok _) => specListBuildLoop s1 p (i + 1) rest

/-- Modelled from the spec: the whole spec-side construction (§4.4/§4.5),
propagating allocation failure and any per-element failure to the caller. -/
def specListBuild (s : PyState) (v : List Int) : PyState × Except Nat Nat :=
  let a := PyList_New s (v.length : Int)
  if a.2 = nullPtr then
    ({ a.1 with errIndicator := none }, .error (a.1.errIndicator.getD 0))
  else
    match specListBuildLoop a.1 a.2 0 v with
    | (s1, .error err) => (s1, .error err)
    | (s1, .ok _) => (s1, .ok a.2)

/-- The slot array of the sequence object a handle designates, if any. -/
def slotsAt (s : PyState) (p : Nat) : Option (List Nat) :=
  match s.lookup p with
  | some ⟨.list items, _⟩ => some items
  | _ => none

/-- The handles a successful construction run hands out to the freshly
converted elements: base+1, base+2, …, base+n in order. -/
def idRange (base n : Nat) : List Nat :=
  (List.range n).map (fun k => base + 1 + k)

/-- Overwrite the slots of a sequence from position i on with the given
handles, one slot per handle, in order. -/
def writeSlots (items : List Nat) (i : Nat) (ids : List Nat) : List Nat :=
  match ids with
  | [] => items
  | a :: rest => writeSlots (items.set i a) (i + 1) rest

/-- The empty starting state: no objects, no error, empty arena, allocation
succeeding. -/
def s0 : PyState :=
  ⟨[], none, [], false⟩

/-- The starting state in allocation-failure (out-of-memory) mode. -/
def sFail : PyState :=
  ⟨[], none, [], true⟩

/-! ### Basic facts about the slot-overwrite and fresh-id helpers -/

theorem length_writeSlots : ∀ (ids items : List Nat) (i : Nat),
    (writeSlots items i ids).length = items.length := by
  intro ids
  induction ids with
  | nil => intro items i; rfl
  | cons a rest ih => intro items i; simp [writeSlots, ih]

theorem getElem?_writeSlots_lt : ∀ (ids items : List Nat) (i j : Nat), j < i →
    (writeSlots items i ids)[j]? = items[j]? := by
  intro ids
  induction ids with
  | nil => intro items i j _; rfl
  | cons a rest ih =>
      intro items i j hj
      simp only [writeSlots]
      rw [ih _ _ _ (Nat.lt_succ_of_lt hj)]
      exact List.getElem?_set_ne (Nat.ne_of_gt hj)

theorem getElem?_writeSlots_ge : ∀ (ids items : List Nat) (i j : Nat),
    i + ids.length ≤ j → (writeSlots items i ids)[j]? = items[j]? := by
  intro ids
  induction ids with
  | nil => intro items i j _; rfl
  | cons a rest ih =>
      intro items i j hj
      simp only [List.length_cons] at hj
      simp only [writeSlots]
      rw [ih _ _ _ (by omega)]
      exact List.getElem?_set_ne (by omega)

theorem getElem?_writeSlots_mid : ∀ (ids items : List Nat) (i k : Nat),
    k < ids.length → i + ids.length ≤ items.length →
    (writeSlots items i ids)[i + k]? = ids[k]? := by
  intro ids
  induction ids with
  | nil => intro items i k hk _; exact absurd hk (by simp)
  | cons a rest ih =>
      intro items i k hk hlen
      simp only [List.length_cons] at hlen
      simp only [writeSlots]
      cases k with
      | zero =>
          have h1 : (writeSlots (items.set i a) (i + 1) rest)[i + 0]? =
              (items.set i a)[i + 0]? := getElem?_writeSlots_lt rest _ _ _ (by omega)
          rw [h1, Nat.add_zero, List.getElem?_set_self (by omega)]
          exact (List.getElem?_cons_zero).symm
      | succ k =>
          have harith : i + (k + 1) = (i + 1) + k := by omega
          rw [harith, ih _ _ _ (by simpa using hk) (by simp only [List.length_set]; omega)]
          exact (List.getElem?_cons_succ).symm

theorem writeSlots_full (ids items : List Nat) (h : ids.length = items.length) :
    writeSlots items 0 ids = ids := by
  apply List.ext_getElem?
  intro n
  by_cases hn : n < ids.length
  · have hmid := getElem?_writeSlots_mid ids items 0 n hn (by omega)
    simpa using hmid
  · have h1 : items[n]? = none := List.getElem?_eq_none (by omega)
    have h2 : ids[n]? = none := List.getElem?_eq_none (by omega)
    rw [getElem?_writeSlots_ge ids items 0 n (by omega), h1, h2]

theorem writeSlots_cons (items : List Nat) (i : Nat) (a : Nat) (ids : List Nat) :
    writeSlots items i (a :: ids) = writeSlots (items.set i a) (i + 1) ids :=
  rfl

theorem idRange_length (base n : Nat) : (idRange base n).length = n := by
  simp [idRange]

theorem idRange_getElem? (base n k : Nat) (hk : k < n) :
    (idRange base n)[k]? = some (base + 1 + k) := by
  simp [idRange, List.getElem?_range hk]

theorem idRange_succ (base n : Nat) :
    idRange base (n + 1) = (base + 1) :: idRange (base + 1) n := by
  apply List.ext_getElem?
  intro j
  by_cases hj : j < n + 1
  · rw [idRange_getElem? _ _ _ hj]
    cases j with
    | zero =>
        rw [List.getElem?_cons_zero]
    | succ j =>
        rw [List.getElem?_cons_succ, idRange_getElem? _ _ _ (by omega)]
        exact congrArg some (by omega)
  · have h1 : (idRange base (n + 1))[j]? = none :=
      List.getElem?_eq_none (by rw [idRange_length]; omega)
    have h2 : ((base + 1) :: idRange (base + 1) n)[j]? = none :=
      List.getElem?_eq_none (by simp only [List.length_cons, idRange_length]; omega)
    rw [h1, h2]

theorem mem_idRange_bounds {base n q : Nat} (h : q ∈ idRange base n) :
    base + 1 ≤ q ∧ q ≤ base + n := by
  simp only [idRange, List.mem_map, List.mem_range] at h
  obtain ⟨k, hk, rfl⟩ := h
  omega

/-! ### The closed form of the construction loop -/

theorem populate_cons (s : PyState) (p : Nat) (i : Nat) (e : Int) (rest : List Int) :
    populate s p i (e :: rest) =
      populate (PyList_SetItem (toPyInt s e).1 p (i : Int) (toPyInt s e).2).1 p (i + 1) rest :=
  rfl

/-- A successful run of the population loop, in closed form: the sequence's
slots from position i on are overwritten with the freshly allocated handles
in order, and the heap grows by one scalar object per element, each with
reference count 1 (the one strong reference now held by its slot). -/
theorem populate_eq : ∀ (elems : List Int) (s : PyState) (pidx i : Nat)
    (items : List Nat) (rc : Int),
    s.allocFail = false →
    s.objs[pidx]? = some ⟨.list items, rc⟩ →
    i + elems.length ≤ items.length →
    (∀ j, i ≤ j → j < items.length → items[j]? = some nullPtr) →
    populate s (pidx + 1) i elems =
      ⟨(s.objs.set pidx
            ⟨.list (writeSlots items i (idRange s.objs.length elems.length)), rc⟩)
          ++ elems.map (fun e => ⟨.int e, 1⟩),
        s.errIndicator, s.arena, false⟩ := by
  intro elems
  induction elems with
  | nil =>
      intro s pidx i items rc hA hp hle hnull
      have hpi : pidx < s.objs.length := by
        by_contra hcon
        rw [List.getElem?_eq_none (by omega)] at hp
        exact Option.noConfusion hp
      have hset : s.objs.set pidx ⟨.list items, rc⟩ = s.objs := by
        apply List.ext_getElem?
        intro n
        by_cases hn : n = pidx
        · subst hn
          rw [List.getElem?_set_self hpi, hp]
        · exact List.getElem?_set_ne (Ne.symm hn)
      simp only [populate, idRange, List.range_zero, List.map_nil, writeSlots,
        List.append_nil, hset]
      obtain ⟨o, er, ar, af⟩ := s
      simp only at hA
      subst hA
      rfl
  | cons e rest ih =>
      intro s pidx i items rc hA hp hle hnull
      obtain ⟨o, er, ar, af⟩ := s
      simp only at hA hp hle hnull ⊢
      subst hA
      have hpi : pidx < o.length := by
        by_contra hcon
        rw [List.getElem?_eq_none (by omega)] at hp
        exact Option.noConfusion hp
      have hlen : i < items.length := by
        simp only [List.length_cons] at hle
        omega
      have halloc : toPyInt ⟨o, er, ar, false⟩ e =
          (⟨o ++ [⟨.int e, 1⟩], er, ar, false⟩, o.length + 1) := by
        simp [toPyInt, PyState.alloc]
      have hlook1 : PyState.lookup ⟨o ++ [⟨.int e, 1⟩], er, ar, false⟩ (pidx + 1) =
          some ⟨.list items, rc⟩ := by
        have hne : ¬ (pidx + 1 = 0) := by omega
        simp only [PyState.lookup, Nat.add_sub_cancel, if_neg hne]
        rw [List.getElem?_append_left hpi]
        exact hp
      have hoi : items[i]? = some nullPtr := hnull i (Nat.le_refl i) hlen
      have hset1 : PyList_SetItem ⟨o ++ [⟨.int e, 1⟩], er, ar, false⟩ (pidx + 1)
            (i : Int) (o.length + 1) =
          (⟨(o ++ [(⟨.int e, 1⟩ : PyObjEntry)]).set pidx
              (⟨.list (items.set i (o.length + 1)), rc⟩ : PyObjEntry),
            er, ar, false⟩, 0) := by
        simp only [PyList_SetItem, hlook1]
        rw [if_pos ⟨Int.ofNat_nonneg i, Int.ofNat_lt.mpr hlen⟩]
        simp [PyState.setObj, PyState.decref, PyState.lookup, Nat.add_sub_cancel,
          hoi, nullPtr]
      have hstep : (PyList_SetItem (toPyInt ⟨o, er, ar, false⟩ e).1 (pidx + 1)
            (i : Int) (toPyInt ⟨o, er, ar, false⟩ e).2).1 =
          ⟨(o ++ [(⟨.int e, 1⟩ : PyObjEntry)]).set pidx
              (⟨.list (items.set i (o.length + 1)), rc⟩ : PyObjEntry),
            er, ar, false⟩ := by
        rw [halloc, hset1]
      rw [populate_cons, hstep]
      have hrec := ih ⟨(o ++ [(⟨.int e, 1⟩ : PyObjEntry)]).set pidx
            (⟨.list (items.set i (o.length + 1)), rc⟩ : PyObjEntry), er, ar, false⟩
          pidx (i + 1) (items.set i (o.length + 1)) rc rfl
          (by
            simp only
            rw [List.getElem?_set_self (by simp only [List.length_set,
              List.length_append, List.length_cons, List.length_nil]; omega)])
          (by
            simp only [List.length_set, List.length_cons] at hle ⊢
            omega)
          (by
            intro j hj hjlen
            rw [List.getElem?_set_ne (by omega)]
            exact hnull j (by omega) (by simpa using hjlen))
      simp only at hrec
      rw [hrec]
      have hlnew : ((o ++ [(⟨.int e, 1⟩ : PyObjEntry)]).set pidx
          ⟨.list (items.set i (o.length + 1)), rc⟩).length = o.length + 1 := by
        simp
      rw [hlnew]
      refine congrArg (fun t => PyState.mk t er ar false) ?_
      rw [List.set_set, List.set_append_left _ _ hpi]
      simp only [List.length_cons]
      rw [idRange_succ, writeSlots_cons]
      simp [List.append_assoc]

/-! ### Closed forms of the three public constructions -/

theorem PyList_New_eq (s : PyState) (len : Nat) (hA : s.allocFail = false) :
    PyList_New s (len : Int) =
      (⟨s.objs ++ [(⟨.list (List.replicate len nullPtr), 1⟩ : PyObjEntry)],
        s.errIndicator, s.arena, false⟩, s.objs.length + 1) := by
  obtain ⟨o, er, ar, af⟩ := s
  simp only at hA ⊢
  subst hA
  have hge : ¬ ((len : Int) < 0) := by omega
  simp [PyList_New, PyState.alloc, if_neg hge]

theorem new_eq (s : PyState) (v : List Int) (hA : s.allocFail = false) :
    PyList.new s v =
      (⟨s.objs ++ (⟨.list (idRange (s.objs.length + 1) v.length), 1⟩ : PyObjEntry) ::
          v.map (fun e => (⟨.int e, 1⟩ : PyObjEntry)),
        s.errIndicator, s.arena, false⟩, s.objs.length + 1) := by
  show (populate (PyList_New s (v.length : Int)).1 (PyList_New s (v.length : Int)).2 0 v,
      (PyList_New s (v.length : Int)).2) = _
  rw [PyList_New_eq s v.length hA]
  have hrec := populate_eq v
      ⟨s.objs ++ [(⟨.list (List.replicate v.length nullPtr), 1⟩ : PyObjEntry)],
        s.errIndicator, s.arena, false⟩
      s.objs.length 0 (List.replicate v.length nullPtr) 1 rfl
      (List.getElem?_concat_length _ _)
      (by simp)
      (by
        intro j _ hj
        simp only [List.length_replicate] at hj
        simp [hj])
  simp only at hrec
  rw [hrec]
  have hlen2 : (s.objs ++ [(⟨.list (List.replicate v.length nullPtr), 1⟩ : PyObjEntry)]).length
      = s.objs.length + 1 := by simp
  rw [hlen2, writeSlots_full _ _ (by simp [idRange_length])]
  refine congrArg (fun t => ((⟨t, s.errIndicator, s.arena, false⟩ : PyState),
    s.objs.length + 1)) ?_
  rw [List.set_append_right _ _ (Nat.le_refl s.objs.length)]
  simp

theorem sliceToObject_eq (s : PyState) (v : List Int) (hA : s.allocFail = false) :
    sliceToObject s v =
      (⟨s.objs ++ (⟨.list (idRange (s.objs.length + 1) v.length), 1⟩ : PyObjEntry) ::
          v.map (fun e => (⟨.int e, 1⟩ : PyObjEntry)),
        s.errIndicator, s.arena, false⟩, some (s.objs.length + 1)) := by
  show ((PyList.new s v).1,
      if (PyList.new s v).2 = nullPtr then none else some ((PyList.new s v).2)) = _
  rw [new_eq s v hA]
  simp [nullPtr]

theorem vecIntoObject_eq (s : PyState) (v : List Int) (hA : s.allocFail = false) :
    vecIntoObject s v =
      (⟨s.objs ++ (⟨.list (idRange (s.objs.length + 1) v.length), 1⟩ : PyObjEntry) ::
          v.map (fun e => (⟨.int e, 1⟩ : PyObjEntry)),
        s.errIndicator, s.arena, false⟩, some (s.objs.length + 1)) := by
  show ((PyList.new s v).1,
      if (PyList.new s v).2 = nullPtr then none else some ((PyList.new s v).2)) = _
  rw [new_eq s v hA]
  simp [nullPtr]

/-! ### A small kit about lookups under the state operations -/

theorem lookup_some_ne_zero {s : PyState} {q : Nat} {e : PyObjEntry}
    (h : s.lookup q = some e) : q ≠ 0 := by
  intro h0
  rw [h0] at h
  simp [PyState.lookup] at h

theorem lookup_some_lt {s : PyState} {q : Nat} {e : PyObjEntry}
    (h : s.lookup q = some e) : q - 1 < s.objs.length := by
  by_contra hcon
  have hq := lookup_some_ne_zero h
  rw [PyState.lookup, if_neg hq,
    List.getElem?_eq_none (show s.objs.length ≤ q - 1 by omega)] at h
  exact Option.noConfusion h

theorem lookup_setObj_self (s : PyState) (p : Nat) (e : PyObjEntry)
    (hp : p ≠ 0) (hlt : p - 1 < s.objs.length) : (s.setObj p e).lookup p = some e := by
  simp [PyState.setObj, PyState.lookup, hp, List.getElem?_set_self hlt]

theorem lookup_setObj_ne (s : PyState) (p r : Nat) (e : PyObjEntry)
    (hp : p ≠ 0) (hne : r ≠ p) : (s.setObj p e).lookup r = s.lookup r := by
  by_cases hr : r = 0
  · simp [PyState.lookup, hr]
  · simp only [PyState.setObj, PyState.lookup, if_neg hr]
    exact List.getElem?_set_ne (show p - 1 ≠ r - 1 by omega)

theorem extractInt_congr (s1 s2 : PyState) (r : Nat)
    (h : s1.lookup r = s2.lookup r) : extractInt s1 r = extractInt s2 r := by
  unfold extractInt
  rw [h]

theorem slotsAt_congr (s1 s2 : PyState) (p : Nat)
    (h : s1.lookup p = s2.lookup p) : slotsAt s1 p = slotsAt s2 p := by
  unfold slotsAt
  rw [h]

theorem extractInt_data_congr (s1 s2 : PyState) (r : Nat)
    (h : Option.map PyObjEntry.data (s1.lookup r) = Option.map PyObjEntry.data (s2.lookup r)) :
    extractInt s1 r = extractInt s2 r := by
  unfold extractInt
  cases h1 : s1.lookup r with
  | none =>
      rw [h1] at h
      cases h2 : s2.lookup r with
      | none => rfl
      | some e2 =>
          rw [h2] at h
          simp only [Option.map_none', Option.map_some'] at h
          exact Option.noConfusion h
  | some e1 =>
      rw [h1] at h
      cases h2 : s2.lookup r with
      | none =>
          rw [h2] at h
          simp only [Option.map_none', Option.map_some'] at h
          exact Option.noConfusion h
      | some e2 =>
          rw [h2] at h
          simp only [Option.map_some', Option.some_inj] at h
          obtain ⟨d1, rc1⟩ := e1
          obtain ⟨d2, rc2⟩ := e2
          simp only at h
          subst h
          cases d1 <;> rfl

theorem lookup_setObj_data (s : PyState) (p r : Nat) (e e' : PyObjEntry)
    (hp : s.lookup p = some e) (hdata : e'.data = e.data) :
    Option.map PyObjEntry.data ((s.setObj p e').lookup r) =
      Option.map PyObjEntry.data (s.lookup r) := by
  by_cases hr : r = p
  · subst hr
    rw [lookup_setObj_self s r e' (lookup_some_ne_zero hp) (lookup_some_lt hp), hp]
    simp [hdata]
  · rw [lookup_setObj_ne s p r e' (lookup_some_ne_zero hp) hr]

theorem lookup_incref_data (s : PyState) (q r : Nat) :
    Option.map PyObjEntry.data ((s.incref q).lookup r) =
      Option.map PyObjEntry.data (s.lookup r) := by
  unfold PyState.incref
  cases hl : s.lookup q with
  | none => rfl
  | some e => exact lookup_setObj_data s q r e _ hl rfl

theorem lookup_decref_data (s : PyState) (q r : Nat) :
    Option.map PyObjEntry.data ((s.decref q).lookup r) =
      Option.map PyObjEntry.data (s.lookup r) := by
  unfold PyState.decref
  cases hl : s.lookup q with
  | none => rfl
  | some e => exact lookup_setObj_data s q r e _ hl rfl

/-! ### Lookups in the freshly built state -/

/-- The heap produced by a successful construction from v: the original
objects, then the sequence object whose slots are the fresh element handles,
then the converted elements in order, each with reference count 1. -/
def builtState (s : PyState) (v : List Int) : PyState :=
  ⟨s.objs ++ (⟨.list (idRange (s.objs.length + 1) v.length), 1⟩ : PyObjEntry) ::
      v.map (fun e => (⟨.int e, 1⟩ : PyObjEntry)),
    s.errIndicator, s.arena, false⟩

theorem new_eq_builtState (s : PyState) (v : List Int) (hA : s.allocFail = false) :
    PyList.new s v = (builtState s v, s.objs.length + 1) :=
  new_eq s v hA

theorem builtState_lookup_list (s : PyState) (v : List Int) :
    (builtState s v).lookup (s.objs.length + 1) =
      some ⟨.list (idRange (s.objs.length + 1) v.length), 1⟩ := by
  simp only [builtState, PyState.lookup, if_neg (Nat.succ_ne_zero s.objs.length),
    Nat.add_sub_cancel]
  rw [List.getElem?_append_right (Nat.le_refl s.objs.length), Nat.sub_self]
  exact List.getElem?_cons_zero

theorem builtState_lookup_elem (s : PyState) (v : List Int) (k : Nat) (hk : k < v.length) :
    (builtState s v).lookup (s.objs.length + 2 + k) = some ⟨.int v[k], 1⟩ := by
  have hne : ¬ (s.objs.length + 2 + k = 0) := by omega
  simp only [builtState, PyState.lookup, if_neg hne]
  have hidx : s.objs.length + 2 + k - 1 = s.objs.length + (k + 1) := by omega
  rw [hidx, List.getElem?_append_right (by omega)]
  have hidx2 : s.objs.length + (k + 1) - s.objs.length = k + 1 := by omega
  rw [hidx2, List.getElem?_cons_succ, List.getElem?_map,
    List.getElem?_eq_getElem hk]
  rfl

/-! ### Reading a built sequence back -/

theorem mapM_extractInt_idRange (S : PyState) : ∀ (v : List Int) (base : Nat),
    (∀ (k : Nat) (hk : k < v.length), extractInt S (base + 1 + k) = .ok v[k]) →
    (idRange base v.length).mapM (extractInt S) = .ok v := by
  intro v
  induction v with
  | nil => intro base _; rfl
  | cons x rest ih =>
      intro base h
      have h0 : extractInt S (base + 1) = .ok x := by
        have hx := h 0 (by simp)
        simpa using hx
      have hrest : (idRange (base + 1) rest.length).mapM (extractInt S) = .ok rest := by
        apply ih
        intro k hk
        have hx := h (k + 1) (by simp only [List.length_cons]; omega)
        have harith : base + 1 + (k + 1) = base + 1 + 1 + k := by omega
        rw [harith] at hx
        simpa using hx
      simp only [List.length_cons, idRange_succ, List.mapM_cons, h0, hrest]
      rfl

theorem extract_builtState (s : PyState) (v : List Int) :
    extractIntList (builtState s v) (s.objs.length + 1) = .ok v := by
  have hl := builtState_lookup_list s v
  simp only [extractIntList, hl]
  apply mapM_extractInt_idRange
  intro k hk
  have harith : s.objs.length + 1 + 1 + k = s.objs.length + 2 + k := by omega
  rw [harith]
  simp only [extractInt, builtState_lookup_elem s v k hk]

theorem get_item_builtState (s : PyState) (v : List Int) (k : Nat) (hk : k < v.length) :
    PyList.get_item (builtState s v) (s.objs.length + 1) (k : Int) =
      some ({ (builtState s v).incref (s.objs.length + 2 + k) with
        arena := ((builtState s v).incref (s.objs.length + 2 + k)).arena ++
          [s.objs.length + 2 + k] }, s.objs.length + 2 + k) := by
  have hlt : ((k : Nat) : Int) < (((idRange (s.objs.length + 1) v.length).length : Nat) : Int) := by
    rw [idRange_length]
    exact Int.ofNat_lt.mpr hk
  have hq : PyList_GetItem (builtState s v) (s.objs.length + 1) (k : Int) =
      s.objs.length + 2 + k := by
    simp only [PyList_GetItem, builtState_lookup_list]
    rw [if_pos ⟨Int.ofNat_nonneg k, hlt⟩]
    simp only [Int.toNat_ofNat, idRange_getElem? _ _ _ hk, Option.getD_some]
  simp only [PyList.get_item, hq]
  rw [if_neg (show ¬ (s.objs.length + 2 + k = nullPtr) by
    simp only [nullPtr]; omega)]

theorem extractInt_get_item_builtState (s : PyState) (v : List Int) (k : Nat)
    (hk : k < v.length) :
    extractInt ({ (builtState s v).incref (s.objs.length + 2 + k) with
      arena := ((builtState s v).incref (s.objs.length + 2 + k)).arena ++
        [s.objs.length + 2 + k] }) (s.objs.length + 2 + k) = .ok v[k] := by
  have h1 : extractInt ({ (builtState s v).incref (s.objs.length + 2 + k) with
      arena := ((builtState s v).incref (s.objs.length + 2 + k)).arena ++
        [s.objs.length + 2 + k] }) (s.objs.length + 2 + k) =
      extractInt ((builtState s v).incref (s.objs.length + 2 + k))
        (s.objs.length + 2 + k) := rfl
  rw [h1, extractInt_data_congr _ (builtState s v) _ (lookup_incref_data _ _ _)]
  simp only [extractInt, builtState_lookup_elem s v k hk]

/-- C1: element-wise round trip — converting a host sequence to a foreign
sequence and reading it back recovers the sequence exactly, and every valid
index of a freshly built container extracts to the original element. -/
theorem claim_roundtrip (s : PyState) (v : List Int) (hA : s.allocFail = false) :
    (∃ st p, sliceToObject s v = (st, some p) ∧ extractIntList st p = .ok v) ∧
    (∀ (k : Nat) (hk : k < v.length),
      ∃ st q, PyList.get_item (PyList.new s v).1 (PyList.new s v).2 (k : Int) =
          some (st, q) ∧ extractInt st q = .ok v[k]) := by
  constructor
  · refine ⟨builtState s v, s.objs.length + 1, ?_, extract_builtState s v⟩
    rw [sliceToObject_eq s v hA]
    rfl
  · intro k hk
    rw [new_eq_builtState s v hA]
    exact ⟨_, s.objs.length + 2 + k, get_item_builtState s v k hk,
      extractInt_get_item_builtState s v k hk⟩

theorem claim_roundtrip_witness :
    (∃ st p, sliceToObject s0 [2, 3, 5, 7] = (st, some p) ∧
      extractIntList st p = .ok [2, 3, 5, 7]) ∧
    (∀ (k : Nat) (hk : k < ([2, 3, 5, 7] : List Int).length),
      ∃ st q, PyList.get_item (PyList.new s0 [2, 3, 5, 7]).1
          (PyList.new s0 [2, 3, 5, 7]).2 (k : Int) = some (st, q) ∧
        extractInt st q = .ok ([2, 3, 5, 7] : List Int)[k]) :=
  claim_roundtrip s0 [2, 3, 5, 7] rfl

/-- C2: the container built from a host sequence has exactly the host
sequence's length. -/
theorem claim_len_new (s : PyState) (v : List Int) (hA : s.allocFail = false) :
    PyList.len (PyList.new s v).1 (PyList.new s v).2 = v.length := by
  rw [new_eq_builtState s v hA]
  simp only [PyList.len, PyList_Size, builtState_lookup_list, idRange_length,
    Int.toNat_ofNat]

theorem claim_len_new_witness :
    PyList.len (PyList.new s0 [2, 3, 5, 7]).1 (PyList.new s0 [2, 3, 5, 7]).2 = 4 :=
  claim_len_new s0 [2, 3, 5, 7] rfl

/-! ### Helpers for the container operations -/

theorem slotsAt_some {s : PyState} {p : Nat} {items : List Nat}
    (hs : slotsAt s p = some items) : ∃ rc, s.lookup p = some ⟨.list items, rc⟩ := by
  unfold slotsAt at hs
  cases hl : s.lookup p with
  | none => rw [hl] at hs; exact Option.noConfusion hs
  | some e =>
      obtain ⟨d, rc⟩ := e
      cases d with
      | int w => rw [hl] at hs; exact Option.noConfusion hs
      | list l =>
          rw [hl] at hs
          have hli : l = items := Option.some_injective _ hs
          subst hli
          exact ⟨rc, rfl⟩

theorem slotsAt_of_lookup {s : PyState} {p : Nat} {items : List Nat} {rc : Int}
    (hl : s.lookup p = some ⟨.list items, rc⟩) : slotsAt s p = some items := by
  unfold slotsAt
  rw [hl]

theorem slotsAt_of_data {s : PyState} {p : Nat} {items : List Nat}
    (h : Option.map PyObjEntry.data (s.lookup p) = some (.list items)) :
    slotsAt s p = some items := by
  unfold slotsAt
  cases hl : s.lookup p with
  | none => rw [hl] at h; exact Option.noConfusion h
  | some e =>
      rw [hl] at h
      simp only [Option.map_some', Option.some_inj] at h
      obtain ⟨d, rc⟩ := e
      simp only at h
      subst h
      rfl

theorem lookup_list_of_data {s : PyState} {p : Nat} {items : List Nat}
    (h : Option.map PyObjEntry.data (s.lookup p) = some (.list items)) :
    ∃ rc, s.lookup p = some ⟨.list items, rc⟩ :=
  slotsAt_some (slotsAt_of_data h)

theorem len_of_slotsAt {s : PyState} {p : Nat} {items : List Nat}
    (h : slotsAt s p = some items) : PyList.len s p = items.length := by
  obtain ⟨rc, hl⟩ := slotsAt_some h
  simp only [PyList.len, PyList_Size, hl, Int.toNat_ofNat]

theorem toPyInt_eq (s : PyState) (x : Int) (hA : s.allocFail = false) :
    toPyInt s x = (PyState.mk (s.objs ++ [⟨.int x, 1⟩]) s.errIndicator s.arena false,
      s.objs.length + 1) := by
  obtain ⟨o, er, ar, af⟩ := s
  simp only at hA
  subst hA
  simp [toPyInt, PyState.alloc]

theorem lookup_append (s : PyState) (extra : List PyObjEntry) (er2 : Option Nat)
    (ar2 : List Nat) (af2 : Bool) (p : Nat) (e : PyObjEntry) (h : s.lookup p = some e) :
    (PyState.mk (s.objs ++ extra) er2 ar2 af2).lookup p = some e := by
  have hlt := lookup_some_lt h
  have hp := lookup_some_ne_zero h
  simp only [PyState.lookup, if_neg hp] at h ⊢
  rw [List.getElem?_append_left hlt]
  exact h

theorem rc_of_lookup {s : PyState} {q : Nat} {e : PyObjEntry}
    (h : s.lookup q = some e) : s.rc q = e.refcnt := by
  simp [PyState.rc, h]

theorem rc_setObj_self (s : PyState) (p : Nat) (e : PyObjEntry)
    (hp : p ≠ 0) (hlt : p - 1 < s.objs.length) : (s.setObj p e).rc p = e.refcnt := by
  simp [PyState.rc, lookup_setObj_self s p e hp hlt]

theorem rc_setObj_ne (s : PyState) (p r : Nat) (e : PyObjEntry)
    (hp : p ≠ 0) (hne : r ≠ p) : (s.setObj p e).rc r = s.rc r := by
  simp [PyState.rc, lookup_setObj_ne s p r e hp hne]

theorem rc_decref_self (s : PyState) (q : Nat) (e : PyObjEntry)
    (h : s.lookup q = some e) : (s.decref q).rc q = s.rc q - 1 := by
  unfold PyState.decref
  rw [h, rc_setObj_self s q _ (lookup_some_ne_zero h) (lookup_some_lt h), rc_of_lookup h]

theorem rc_decref_ne (s : PyState) (q r : Nat) (hne : r ≠ q) :
    (s.decref q).rc r = s.rc r := by
  unfold PyState.decref
  cases hl : s.lookup q with
  | none => rfl
  | some e => exact rc_setObj_ne s q r _ (lookup_some_ne_zero hl) hne

theorem rc_append_ne_new (s : PyState) (x : PyObjEntry) (er2 : Option Nat)
    (ar2 : List Nat) (af2 : Bool) (q : Nat) (hq : q ≠ s.objs.length + 1) :
    (PyState.mk (s.objs ++ [x]) er2 ar2 af2).rc q = s.rc q := by
  unfold PyState.rc PyState.lookup
  by_cases h0 : q = 0
  · simp [h0]
  · simp only [if_neg h0]
    by_cases hlt : q - 1 < s.objs.length
    · rw [List.getElem?_append_left hlt]
    · rw [List.getElem?_eq_none (show s.objs.length ≤ q - 1 by omega),
        List.getElem?_eq_none (show (s.objs ++ [x]).length ≤ q - 1 by
          simp only [List.length_append, List.length_cons, List.length_nil]; omega)]

theorem insertIdx_getElem?_self (l : List Nat) (n : Nat) (a : Nat) (hn : n ≤ l.length) :
    (l.insertIdx n a)[n]? = some a := by
  rw [List.getElem?_eq_getElem (show n < (l.insertIdx n a).length by
    rw [@List.length_insertIdx _ a n l hn]; omega)]
  exact congrArg some (List.getElem_insertIdx_self l a n hn)

theorem insertIdx_getElem?_lt (l : List Nat) (n : Nat) (a : Nat) (j : Nat) (hj : j < n)
    (hjl : j < l.length) : (l.insertIdx n a)[j]? = l[j]? := by
  rw [List.getElem?_eq_getElem (show j < (l.insertIdx n a).length from
      Nat.lt_of_lt_of_le hjl (List.length_le_length_insertIdx l a n)),
    List.getElem?_eq_getElem hjl]
  exact congrArg some (List.getElem_insertIdx_of_lt l a n j hj hjl)

theorem insertIdx_getElem?_ge (l : List Nat) (n : Nat) (a : Nat) (j : Nat) (hn : n ≤ j)
    (hjl : j < l.length) : (l.insertIdx n a)[j + 1]? = l[j]? := by
  have he : n + (j - n) = j := by omega
  have h2 : (l.insertIdx n a)[n + (j - n) + 1]? = l[n + (j - n)]? := by
    rw [List.getElem?_eq_getElem (show n + (j - n) < l.length by omega),
      List.getElem?_eq_getElem (show n + (j - n) + 1 < (l.insertIdx n a).length by
        rw [@List.length_insertIdx _ a n l (by omega)]; omega)]
    exact congrArg some (List.getElem_insertIdx_add_succ l a n (j - n) (by omega)
      (by rw [@List.length_insertIdx _ a n l (by omega)]; omega))
  rw [he] at h2
  exact h2

/-- C3: the unchecked fetch is fatal outside the valid index range — it never
produces a recoverable error value (its result type has no error channel) —
and inside the range it hands back the slot's handle, tracked in the token's
arena, without faulting. -/
theorem claim_get_item_contract (s : PyState) (p : Nat) (items : List Nat) (index : Int)
    (hs : slotsAt s p = some items) :
    (¬ (0 ≤ index ∧ index < (items.length : Int)) → PyList.get_item s p index = none) ∧
    (∀ (hin : 0 ≤ index ∧ index < (items.length : Int)) (q : Nat),
      items[index.toNat]? = some q → q ≠ nullPtr →
      PyList.get_item s p index =
        some ({ s.incref q with arena := (s.incref q).arena ++ [q] }, q)) := by
  obtain ⟨rc, hl⟩ := slotsAt_some hs
  constructor
  · intro hnot
    have hg : PyList_GetItem s p index = nullPtr := by
      simp only [PyList_GetItem, hl, if_neg hnot]
    simp [PyList.get_item, hg]
  · intro hin q hq hq0
    have hg : PyList_GetItem s p index = q := by
      simp only [PyList_GetItem, hl, if_pos hin, hq, Option.getD_some]
    simp only [PyList.get_item, hg]
    rw [if_neg hq0]

theorem claim_get_item_contract_witness :
    (¬ ((0 : Int) ≤ 2 ∧ (2 : Int) < (([2, 3] : List Nat).length : Int)) →
      PyList.get_item (PyList.new s0 [2, 3]).1 1 2 = none) ∧
    (∀ (hin : (0 : Int) ≤ 2 ∧ (2 : Int) < (([2, 3] : List Nat).length : Int)) (q : Nat),
      ([2, 3] : List Nat)[(2 : Int).toNat]? = some q → q ≠ nullPtr →
      PyList.get_item (PyList.new s0 [2, 3]).1 1 2 =
        some ({ (PyList.new s0 [2, 3]).1.incref q with
          arena := ((PyList.new s0 [2, 3]).1.incref q).arena ++ [q] }, q)) :=
  claim_get_item_contract (PyList.new s0 [2, 3]).1 1 [2, 3] 2 (by decide)

/-- C4: out-of-range set_item and insert_item report a recoverable error
built from (and clearing) the error-indicator state on status code -1, while
in-range calls succeed with Ok(()). -/
theorem claim_set_insert_errors (s : PyState) (p : Nat) (items : List Nat) (index : Int)
    (x : Int) (hA : s.allocFail = false) (hs : slotsAt s p = some items) :
    (¬ (0 ≤ index ∧ index < (items.length : Int)) →
      (PyList.set_item s p index x).2 = .error indexError ∧
      (PyList.set_item s p index x).1.errIndicator = none) ∧
    ((0 ≤ index ∧ index < (items.length : Int)) →
      (PyList.set_item s p index x).2 = .ok ()) ∧
    (¬ (0 ≤ index ∧ index ≤ (items.length : Int)) →
      (PyList.insert_item s p index x).2 = .error indexError ∧
      (PyList.insert_item s p index x).1.errIndicator = none) ∧
    ((0 ≤ index ∧ index ≤ (items.length : Int)) →
      (PyList.insert_item s p index x).2 = .ok ()) := by
  obtain ⟨rc, hl⟩ := slotsAt_some hs
  have hc := toPyInt_eq s x hA
  have hl1 : (PyState.mk (s.objs ++ [⟨.int x, 1⟩]) s.errIndicator s.arena false).lookup p =
      some ⟨.list items, rc⟩ := lookup_append s _ _ _ _ p _ hl
  refine ⟨?_, ?_, ?_, ?_⟩
  · intro hnot
    constructor
    · simp only [PyList.set_item, hc, PyList_SetItem, hl1, if_neg hnot,
        error_on_minusone, if_pos rfl]
      rfl
    · simp only [PyList.set_item, hc, PyList_SetItem, hl1, if_neg hnot,
        error_on_minusone, if_pos rfl]
      rfl
  · intro hin
    simp only [PyList.set_item, hc, PyList_SetItem, hl1, if_pos hin, error_on_minusone]
    rw [if_neg (show ¬ ((0 : Int) = -1) by omega)]
  · intro hnot
    constructor
    · simp only [PyList.insert_item, hc, PyList_Insert, hl1, if_neg hnot,
        error_on_minusone, if_pos rfl]
      rfl
    · simp only [PyList.insert_item, hc, PyList_Insert, hl1, if_neg hnot,
        error_on_minusone, if_pos rfl]
      rfl
  · intro hin
    simp only [PyList.insert_item, hc, PyList_Insert, hl1, if_pos hin, error_on_minusone]
    rw [if_neg (show ¬ ((0 : Int) = -1) by omega)]

theorem claim_set_insert_errors_witness :
    (¬ ((0 : Int) ≤ 9 ∧ (9 : Int) < (([2, 3] : List Nat).length : Int)) →
      (PyList.set_item (PyList.new s0 [2, 3]).1 1 9 42).2 = .error indexError ∧
      (PyList.set_item (PyList.new s0 [2, 3]).1 1 9 42).1.errIndicator = none) ∧
    (((0 : Int) ≤ 9 ∧ (9 : Int) < (([2, 3] : List Nat).length : Int)) →
      (PyList.set_item (PyList.new s0 [2, 3]).1 1 9 42).2 = .ok ()) ∧
    (¬ ((0 : Int) ≤ 9 ∧ (9 : Int) ≤ (([2, 3] : List Nat).length : Int)) →
      (PyList.insert_item (PyList.new s0 [2, 3]).1 1 9 42).2 = .error indexError ∧
      (PyList.insert_item (PyList.new s0 [2, 3]).1 1 9 42).1.errIndicator = none) ∧
    (((0 : Int) ≤ 9 ∧ (9 : Int) ≤ (([2, 3] : List Nat).length : Int)) →
      (PyList.insert_item (PyList.new s0 [2, 3]).1 1 9 42).2 = .ok ()) :=
  claim_set_insert_errors (PyList.new s0 [2, 3]).1 1 [2, 3] 9 42 rfl (by decide)

/-- C5: a successful insert at a valid position grows the length by exactly
one, puts the converted value's fresh handle at the requested position (and
that handle extracts back to the value), and shifts the elements previously
at or after the position up by one slot, preserving their relative order. -/
theorem claim_insert_semantics (s : PyState) (p : Nat) (items : List Nat) (rc : Int)
    (index : Int) (x : Int) (hA : s.allocFail = false)
    (hl : s.lookup p = some ⟨.list items, rc⟩)
    (h0 : 0 ≤ index) (h1 : index ≤ (items.length : Int)) :
    (PyList.insert_item s p index x).2 = .ok () ∧
    slotsAt (PyList.insert_item s p index x).1 p =
      some (items.insertIdx index.toNat (s.objs.length + 1)) ∧
    extractInt (PyList.insert_item s p index x).1 (s.objs.length + 1) = .ok x ∧
    PyList.len (PyList.insert_item s p index x).1 p = items.length + 1 ∧
    (items.insertIdx index.toNat (s.objs.length + 1))[index.toNat]? =
      some (s.objs.length + 1) ∧
    (∀ j : Nat, j < index.toNat →
      (items.insertIdx index.toNat (s.objs.length + 1))[j]? = items[j]?) ∧
    (∀ j : Nat, index.toNat ≤ j → j < items.length →
      (items.insertIdx index.toNat (s.objs.length + 1))[j + 1]? = items[j]?) := by
  have hc := toPyInt_eq s x hA
  have hl1 := lookup_append s [⟨.int x, 1⟩] s.errIndicator s.arena false p _ hl
  have hp0 := lookup_some_ne_zero hl
  have hple := lookup_some_lt hl
  have hitn : index.toNat ≤ items.length := by omega
  have hin : 0 ≤ index ∧ index ≤ (items.length : Int) := ⟨h0, h1⟩
  have hins : PyList.insert_item s p index x =
      ((PyState.mk (s.objs ++ [⟨.int x, 1⟩]) s.errIndicator s.arena false).setObj p
        ⟨.list (items.insertIdx index.toNat (s.objs.length + 1)), rc⟩, .ok ()) := by
    simp only [PyList.insert_item, hc, PyList_Insert, hl1, if_pos hin,
      error_on_minusone]
    rw [if_neg (show ¬ ((0 : Int) = -1) by omega)]
  have hins1 : (PyList.insert_item s p index x).1 =
      (PyState.mk (s.objs ++ [⟨.int x, 1⟩]) s.errIndicator s.arena false).setObj p
        ⟨.list (items.insertIdx index.toNat (s.objs.length + 1)), rc⟩ := by
    rw [hins]
  have hins2 : (PyList.insert_item s p index x).2 = .ok () := by
    rw [hins]
  rw [hins1, hins2]
  have hsl : slotsAt ((PyState.mk (s.objs ++ [⟨.int x, 1⟩]) s.errIndicator s.arena
      false).setObj p ⟨.list (items.insertIdx index.toNat (s.objs.length + 1)), rc⟩) p =
      some (items.insertIdx index.toNat (s.objs.length + 1)) := by
    apply slotsAt_of_lookup
    exact lookup_setObj_self _ p _ hp0
      (by simp only [List.length_append, List.length_cons, List.length_nil]; omega)
  refine ⟨rfl, hsl, ?_, ?_, ?_, ?_, ?_⟩
  · have hnep : s.objs.length + 1 ≠ p := by omega
    refine Eq.trans (extractInt_congr _ _ _ (lookup_setObj_ne _ p _ _ hp0 hnep)) ?_
    have hlk : (PyState.mk (s.objs ++ [⟨.int x, 1⟩]) s.errIndicator s.arena
        false).lookup (s.objs.length + 1) = some ⟨.int x, 1⟩ := by
      simp only [PyState.lookup, if_neg (show ¬ (s.objs.length + 1 = 0) by omega),
        Nat.add_sub_cancel]
      exact List.getElem?_concat_length _ _
    simp only [extractInt, hlk]
  · rw [len_of_slotsAt hsl, @List.length_insertIdx _ (s.objs.length + 1) index.toNat
      items hitn]
  · exact insertIdx_getElem?_self items index.toNat _ hitn
  · intro j hj
    exact insertIdx_getElem?_lt items index.toNat _ j hj (by omega)
  · intro j hj hjl
    exact insertIdx_getElem?_ge items index.toNat _ j hj hjl

theorem claim_insert_semantics_witness :
    (PyList.insert_item (PyList.new s0 [2, 3]).1 1 0 42).2 = .ok () ∧
    slotsAt (PyList.insert_item (PyList.new s0 [2, 3]).1 1 0 42).1 1 =
      some (([2, 3] : List Nat).insertIdx (0 : Int).toNat
        ((PyList.new s0 [2, 3]).1.objs.length + 1)) ∧
    extractInt (PyList.insert_item (PyList.new s0 [2, 3]).1 1 0 42).1
      ((PyList.new s0 [2, 3]).1.objs.length + 1) = .ok 42 ∧
    PyList.len (PyList.insert_item (PyList.new s0 [2, 3]).1 1 0 42).1 1 =
      ([2, 3] : List Nat).length + 1 ∧
    (([2, 3] : List Nat).insertIdx (0 : Int).toNat
      ((PyList.new s0 [2, 3]).1.objs.length + 1))[(0 : Int).toNat]? =
      some ((PyList.new s0 [2, 3]).1.objs.length + 1) ∧
    (∀ j : Nat, j < (0 : Int).toNat →
      (([2, 3] : List Nat).insertIdx (0 : Int).toNat
        ((PyList.new s0 [2, 3]).1.objs.length + 1))[j]? = ([2, 3] : List Nat)[j]?) ∧
    (∀ j : Nat, (0 : Int).toNat ≤ j → j < ([2, 3] : List Nat).length →
      (([2, 3] : List Nat).insertIdx (0 : Int).toNat
        ((PyList.new s0 [2, 3]).1.objs.length + 1))[j + 1]? = ([2, 3] : List Nat)[j]?) :=
  claim_insert_semantics (PyList.new s0 [2, 3]).1 1 [2, 3] 1 0 42 rfl (by decide)
    (by decide) (by decide)

/-- C6: frame property of set_item — after a successful in-range store, the
requested slot holds the new value's handle (which extracts to the value),
every other slot is unchanged, and the length is unchanged. -/
theorem claim_set_item_frame (s : PyState) (p : Nat) (items : List Nat) (rc : Int)
    (index : Int) (x : Int) (hA : s.allocFail = false)
    (hl : s.lookup p = some ⟨.list items, rc⟩)
    (h0 : 0 ≤ index) (h1 : index < (items.length : Int)) :
    (PyList.set_item s p index x).2 = .ok () ∧
    slotsAt (PyList.set_item s p index x).1 p =
      some (items.set index.toNat (s.objs.length + 1)) ∧
    extractInt (PyList.set_item s p index x).1 (s.objs.length + 1) = .ok x ∧
    PyList.len (PyList.set_item s p index x).1 p = items.length ∧
    (items.set index.toNat (s.objs.length + 1))[index.toNat]? =
      some (s.objs.length + 1) ∧
    (∀ j : Nat, j ≠ index.toNat →
      (items.set index.toNat (s.objs.length + 1))[j]? = items[j]?) := by
  have hc := toPyInt_eq s x hA
  have hl1 := lookup_append s [⟨.int x, 1⟩] s.errIndicator s.arena false p _ hl
  have hp0 := lookup_some_ne_zero hl
  have hple := lookup_some_lt hl
  have hitn : index.toNat < items.length := by omega
  have hin : 0 ≤ index ∧ index < (items.length : Int) := ⟨h0, h1⟩
  have hset : PyList.set_item s p index x =
      (((PyState.mk (s.objs ++ [⟨.int x, 1⟩]) s.errIndicator s.arena false).setObj p
          ⟨.list (items.set index.toNat (s.objs.length + 1)), rc⟩).decref
            ((items[index.toNat]?).getD nullPtr), .ok ()) := by
    simp only [PyList.set_item, hc, PyList_SetItem, hl1, if_pos hin,
      error_on_minusone]
    rw [if_neg (show ¬ ((0 : Int) = -1) by omega)]
  have hset1 : (PyList.set_item s p index x).1 =
      ((PyState.mk (s.objs ++ [⟨.int x, 1⟩]) s.errIndicator s.arena false).setObj p
          ⟨.list (items.set index.toNat (s.objs.length + 1)), rc⟩).decref
            ((items[index.toNat]?).getD nullPtr) := by
    rw [hset]
  have hset2 : (PyList.set_item s p index x).2 = .ok () := by
    rw [hset]
  rw [hset1, hset2]
  have hlkT : ((PyState.mk (s.objs ++ [⟨.int x, 1⟩]) s.errIndicator s.arena
      false).setObj p ⟨.list (items.set index.toNat (s.objs.length + 1)), rc⟩).lookup p =
      some ⟨.list (items.set index.toNat (s.objs.length + 1)), rc⟩ :=
    lookup_setObj_self _ p _ hp0
      (by simp only [List.length_append, List.length_cons, List.length_nil]; omega)
  have hsl : slotsAt (((PyState.mk (s.objs ++ [⟨.int x, 1⟩]) s.errIndicator s.arena
      false).setObj p ⟨.list (items.set index.toNat (s.objs.length + 1)), rc⟩).decref
        ((items[index.toNat]?).getD nullPtr)) p =
      some (items.set index.toNat (s.objs.length + 1)) := by
    apply slotsAt_of_data
    rw [lookup_decref_data, hlkT]
    rfl
  refine ⟨rfl, hsl, ?_, ?_, ?_, ?_⟩
  · have hnep : s.objs.length + 1 ≠ p := by omega
    refine Eq.trans (extractInt_data_congr _ _ _ (lookup_decref_data _ _ _)) ?_
    refine Eq.trans (extractInt_congr _ _ _ (lookup_setObj_ne _ p _ _ hp0 hnep)) ?_
    have hlk : (PyState.mk (s.objs ++ [⟨.int x, 1⟩]) s.errIndicator s.arena
        false).lookup (s.objs.length + 1) = some ⟨.int x, 1⟩ := by
      simp only [PyState.lookup, if_neg (show ¬ (s.objs.length + 1 = 0) by omega),
        Nat.add_sub_cancel]
      exact List.getElem?_concat_length _ _
    simp only [extractInt, hlk]
  · rw [len_of_slotsAt hsl, List.length_set]
  · exact List.getElem?_set_self hitn
  · intro j hj
    exact List.getElem?_set_ne (Ne.symm hj)

theorem claim_set_item_frame_witness :
    (PyList.set_item (PyList.new s0 [2, 3]).1 1 0 42).2 = .ok () ∧
    slotsAt (PyList.set_item (PyList.new s0 [2, 3]).1 1 0 42).1 1 =
      some (([2, 3] : List Nat).set (0 : Int).toNat
        ((PyList.new s0 [2, 3]).1.objs.length + 1)) ∧
    extractInt (PyList.set_item (PyList.new s0 [2, 3]).1 1 0 42).1
      ((PyList.new s0 [2, 3]).1.objs.length + 1) = .ok 42 ∧
    PyList.len (PyList.set_item (PyList.new s0 [2, 3]).1 1 0 42).1 1 =
      ([2, 3] : List Nat).length ∧
    (([2, 3] : List Nat).set (0 : Int).toNat
      ((PyList.new s0 [2, 3]).1.objs.length + 1))[(0 : Int).toNat]? =
      some ((PyList.new s0 [2, 3]).1.objs.length + 1) ∧
    (∀ j : Nat, j ≠ (0 : Int).toNat →
      (([2, 3] : List Nat).set (0 : Int).toNat
        ((PyList.new s0 [2, 3]).1.objs.length + 1))[j]? = ([2, 3] : List Nat)[j]?) :=
  claim_set_item_frame (PyList.new s0 [2, 3]).1 1 [2, 3] 1 0 42 rfl (by decide)
    (by decide) (by decide)

/-! ### The iterator -/

theorem next_eval_yield (s : PyState) (p : Nat) (qs : List Nat) (rc : Int) (i : Int)
    (hl : s.lookup p = some ⟨.list qs, rc⟩) (hnn : ∀ q ∈ qs, q ≠ nullPtr)
    (h0 : 0 ≤ i) (hi : i < (qs.length : Int)) :
    ∃ q, qs[i.toNat]? = some q ∧
      PyListIterator.next s ⟨p, i⟩ =
        .yield ({ s.incref q with arena := (s.incref q).arena ++ [q] }) q ⟨p, i + 1⟩ := by
  have hlen : PyList.len s p = qs.length := len_of_slotsAt (slotsAt_of_lookup hl)
  have hitn : i.toNat < qs.length := (Int.toNat_lt h0).mpr hi
  obtain ⟨q, hq⟩ : ∃ q, qs[i.toNat]? = some q :=
    ⟨_, List.getElem?_eq_getElem hitn⟩
  have hq0 : q ≠ nullPtr := hnn q (List.getElem?_mem hq)
  refine ⟨q, hq, ?_⟩
  have hin : 0 ≤ i ∧ i < (qs.length : Int) := ⟨h0, hi⟩
  have hg : PyList_GetItem s p i = q := by
    simp only [PyList_GetItem, hl, if_pos hin, hq, Option.getD_some]
  simp only [PyListIterator.next, hlen]
  rw [if_pos hi]
  simp only [PyList.get_item, hg]
  rw [if_neg hq0]

theorem next_eval_done (s : PyState) (p : Nat) (qs : List Nat) (rc : Int) (i : Int)
    (hl : s.lookup p = some ⟨.list qs, rc⟩) (hi : (qs.length : Int) ≤ i) :
    PyListIterator.next s ⟨p, i⟩ = .done := by
  have hlen : PyList.len s p = qs.length := len_of_slotsAt (slotsAt_of_lookup hl)
  simp only [PyListIterator.next, hlen]
  rw [if_neg (show ¬ (i < (qs.length : Int)) by omega)]

theorem runIter_drop : ∀ (fuel : Nat) (s : PyState) (p : Nat) (qs : List Nat) (i : Nat),
    (∃ rc, s.lookup p = some ⟨.list qs, rc⟩) →
    (∀ q ∈ qs, q ≠ nullPtr) →
    qs.length - i ≤ fuel →
    runIter s ⟨p, (i : Int)⟩ fuel = qs.drop i := by
  intro fuel
  induction fuel with
  | zero =>
      intro s p qs i _ _ hle
      rw [runIter]
      exact (List.drop_eq_nil_of_le (by omega)).symm
  | succ fuel ih =>
      intro s p qs i hl hnn hle
      obtain ⟨rc, hl⟩ := hl
      by_cases hi : i < qs.length
      · obtain ⟨q, hq, hy⟩ := next_eval_yield s p qs rc (i : Int) hl hnn
          (Int.ofNat_nonneg i) (Int.ofNat_lt.mpr hi)
        rw [Int.toNat_ofNat] at hq
        rw [runIter, hy]
        have hl2 : ∃ rc2, ({ s.incref q with
            arena := (s.incref q).arena ++ [q] }).lookup p = some ⟨.list qs, rc2⟩ := by
          apply lookup_list_of_data
          have harena : ({ s.incref q with
              arena := (s.incref q).arena ++ [q] }).lookup p = (s.incref q).lookup p := rfl
          rw [harena, lookup_incref_data, hl]
          rfl
        have hcast : (i : Int) + 1 = ((i + 1 : Nat) : Int) := by omega
        rw [hcast]
        show q :: runIter ({ s.incref q with arena := (s.incref q).arena ++ [q] })
            ⟨p, ((i + 1 : Nat) : Int)⟩ fuel = qs.drop i
        rw [ih _ p qs (i + 1) hl2 hnn (by omega)]
        rw [List.drop_eq_getElem_cons hi]
        rw [List.getElem?_eq_getElem hi] at hq
        exact congrArg (fun t => t :: qs.drop (i + 1)) (Option.some_injective _ hq).symm
      · rw [runIter, next_eval_done s p qs rc (i : Int) hl
          (by omega)]
        exact (List.drop_eq_nil_of_le (by omega)).symm

/-- C7: the iterator is a live view — each next() re-queries the current
length, yielding the element at the cursor exactly when the cursor is below
the current length and stopping otherwise (so shrinkage terminates the
iteration and growth becomes visible); on a list whose length never changes,
iterating from the start yields exactly the slots in order. -/
theorem claim_iterator_live_view :
    (∀ (s : PyState) (it : PyListIterator) (qs : List Nat) (rc : Int),
      s.lookup it.list = some ⟨.list qs, rc⟩ →
      (∀ q ∈ qs, q ≠ nullPtr) →
      0 ≤ it.index →
      ((it.index < (qs.length : Int) →
        ∃ q, qs[it.index.toNat]? = some q ∧
          PyListIterator.next s it =
            .yield ({ s.incref q with arena := (s.incref q).arena ++ [q] }) q
              ⟨it.list, it.index + 1⟩) ∧
       ((qs.length : Int) ≤ it.index → PyListIterator.next s it = .done))) ∧
    (∀ (s : PyState) (p : Nat) (qs : List Nat) (rc : Int) (fuel : Nat),
      s.lookup p = some ⟨.list qs, rc⟩ →
      (∀ q ∈ qs, q ≠ nullPtr) →
      qs.length ≤ fuel →
      runIter s (PyList.iter p) fuel = qs) := by
  constructor
  · intro s it qs rc hl hnn h0
    obtain ⟨p, i⟩ := it
    constructor
    · intro hi
      exact next_eval_yield s p qs rc i hl hnn h0 hi
    · intro hi
      exact next_eval_done s p qs rc i hl hi
  · intro s p qs rc fuel hl hnn hfuel
    have h := runIter_drop fuel s p qs 0 ⟨rc, hl⟩ hnn (by omega)
    simpa using h

theorem claim_iterator_live_view_witness :
    ((∀ (s : PyState) (it : PyListIterator) (qs : List Nat) (rc : Int),
      s.lookup it.list = some ⟨.list qs, rc⟩ →
      (∀ q ∈ qs, q ≠ nullPtr) →
      0 ≤ it.index →
      ((it.index < (qs.length : Int) →
        ∃ q, qs[it.index.toNat]? = some q ∧
          PyListIterator.next s it =
            .yield ({ s.incref q with arena := (s.incref q).arena ++ [q] }) q
              ⟨it.list, it.index + 1⟩) ∧
       ((qs.length : Int) ≤ it.index → PyListIterator.next s it = .done))) ∧
    (∀ (s : PyState) (p : Nat) (qs : List Nat) (rc : Int) (fuel : Nat),
      s.lookup p = some ⟨.list qs, rc⟩ →
      (∀ q ∈ qs, q ≠ nullPtr) →
      qs.length ≤ fuel →
      runIter s (PyList.iter p) fuel = qs)) ∧
    runIter (PyList.new s0 [2, 3, 5, 7]).1 (PyList.iter (PyList.new s0 [2, 3, 5, 7]).2) 4 =
      [2, 3, 4, 5] :=
  ⟨claim_iterator_live_view,
    claim_iterator_live_view.2 (PyList.new s0 [2, 3, 5, 7]).1 1 [2, 3, 4, 5] 1 4
      (by decide) (by decide) (by decide)⟩

/-- C8: reference-count balance of set_item — on success the freshly
converted handle sits in the requested slot backed by exactly one strong
reference (and aliases no other slot), the reference of the previous
occupant is released exactly once, and no other object's count changes. -/
theorem claim_set_item_refcounts (s : PyState) (p : Nat) (items : List Nat) (rc : Int)
    (index : Int) (x : Int) (old : Nat) (oldE : PyObjEntry)
    (hA : s.allocFail = false)
    (hl : s.lookup p = some ⟨.list items, rc⟩)
    (h0 : 0 ≤ index) (h1 : index < (items.length : Int))
    (hold : items[index.toNat]? = some old)
    (holdE : s.lookup old = some oldE)
    (hvalid : ∀ q ∈ items, q ≤ s.objs.length) :
    (PyList.set_item s p index x).2 = .ok () ∧
    slotsAt (PyList.set_item s p index x).1 p =
      some (items.set index.toNat (s.objs.length + 1)) ∧
    (PyList.set_item s p index x).1.rc (s.objs.length + 1) = 1 ∧
    (PyList.set_item s p index x).1.rc old = s.rc old - 1 ∧
    (∀ q : Nat, q ≠ old → q ≠ s.objs.length + 1 →
      (PyList.set_item s p index x).1.rc q = s.rc q) ∧
    (∀ j : Nat, j ≠ index.toNat →
      (items.set index.toNat (s.objs.length + 1))[j]? ≠ some (s.objs.length + 1)) := by
  have hc := toPyInt_eq s x hA
  have hl1 := lookup_append s [⟨.int x, 1⟩] s.errIndicator s.arena false p _ hl
  have hp0 := lookup_some_ne_zero hl
  have hple := lookup_some_lt hl
  have hoe := lookup_some_lt holdE
  have ho0 := lookup_some_ne_zero holdE
  have hin : 0 ≤ index ∧ index < (items.length : Int) := ⟨h0, h1⟩
  have hset : PyList.set_item s p index x =
      (((PyState.mk (s.objs ++ [⟨.int x, 1⟩]) s.errIndicator s.arena false).setObj p
          ⟨.list (items.set index.toNat (s.objs.length + 1)), rc⟩).decref old,
        .ok ()) := by
    simp only [PyList.set_item, hc, PyList_SetItem, hl1, if_pos hin, hold,
      Option.getD_some, error_on_minusone]
    rw [if_neg (show ¬ ((0 : Int) = -1) by omega)]
  have hset1 : (PyList.set_item s p index x).1 =
      ((PyState.mk (s.objs ++ [⟨.int x, 1⟩]) s.errIndicator s.arena false).setObj p
          ⟨.list (items.set index.toNat (s.objs.length + 1)), rc⟩).decref old := by
    rw [hset]
  have hset2 : (PyList.set_item s p index x).2 = .ok () := by
    rw [hset]
  rw [hset1, hset2]
  have hlkT : ((PyState.mk (s.objs ++ [⟨.int x, 1⟩]) s.errIndicator s.arena
      false).setObj p ⟨.list (items.set index.toNat (s.objs.length + 1)), rc⟩).lookup p =
      some ⟨.list (items.set index.toNat (s.objs.length + 1)), rc⟩ :=
    lookup_setObj_self _ p _ hp0
      (by simp only [List.length_append, List.length_cons, List.length_nil]; omega)
  have hlknew : (PyState.mk (s.objs ++ [⟨.int x, 1⟩]) s.errIndicator s.arena
      false).lookup (s.objs.length + 1) = some ⟨.int x, 1⟩ := by
    simp only [PyState.lookup, if_neg (show ¬ (s.objs.length + 1 = 0) by omega),
      Nat.add_sub_cancel]
    exact List.getElem?_concat_length _ _
  refine ⟨rfl, ?_, ?_, ?_, ?_, ?_⟩
  · apply slotsAt_of_data
    rw [lookup_decref_data, hlkT]
    rfl
  · rw [rc_decref_ne _ old _ (show s.objs.length + 1 ≠ old by omega),
      rc_setObj_ne _ p _ _ hp0 (show s.objs.length + 1 ≠ p by omega),
      rc_of_lookup hlknew]
  · by_cases hop : old = p
    · subst hop
      rw [rc_decref_self _ old _ hlkT, rc_setObj_self _ old _ hp0
        (by simp only [List.length_append, List.length_cons, List.length_nil]; omega),
        rc_of_lookup hl]
    · have hTold : ((PyState.mk (s.objs ++ [⟨.int x, 1⟩]) s.errIndicator s.arena
          false).setObj p ⟨.list (items.set index.toNat (s.objs.length + 1)),
            rc⟩).lookup old = some oldE := by
        rw [lookup_setObj_ne _ p old _ hp0 hop]
        exact lookup_append s _ _ _ _ old _ holdE
      rw [rc_decref_self _ old _ hTold, rc_of_lookup hTold, rc_of_lookup holdE]
  · intro q hq1 hq2
    rw [rc_decref_ne _ old q hq1]
    by_cases hqp : q = p
    · subst hqp
      rw [rc_setObj_self _ q _ hp0
        (by simp only [List.length_append, List.length_cons, List.length_nil]; omega),
        rc_of_lookup hl]
    · rw [rc_setObj_ne _ p q _ hp0 hqp]
      exact rc_append_ne_new s _ _ _ _ q hq2
  · intro j hj habs
    rw [List.getElem?_set_ne (Ne.symm hj)] at habs
    have hmem := List.getElem?_mem habs
    have := hvalid _ hmem
    omega

theorem claim_set_item_refcounts_witness :
    (PyList.set_item (PyList.new s0 [2, 3]).1 1 0 42).2 = .ok () ∧
    slotsAt (PyList.set_item (PyList.new s0 [2, 3]).1 1 0 42).1 1 =
      some (([2, 3] : List Nat).set (0 : Int).toNat
        ((PyList.new s0 [2, 3]).1.objs.length + 1)) ∧
    (PyList.set_item (PyList.new s0 [2, 3]).1 1 0 42).1.rc
      ((PyList.new s0 [2, 3]).1.objs.length + 1) = 1 ∧
    (PyList.set_item (PyList.new s0 [2, 3]).1 1 0 42).1.rc 2 =
      (PyList.new s0 [2, 3]).1.rc 2 - 1 ∧
    (∀ q : Nat, q ≠ 2 → q ≠ (PyList.new s0 [2, 3]).1.objs.length + 1 →
      (PyList.set_item (PyList.new s0 [2, 3]).1 1 0 42).1.rc q =
        (PyList.new s0 [2, 3]).1.rc q) ∧
    (∀ j : Nat, j ≠ (0 : Int).toNat →
      (([2, 3] : List Nat).set (0 : Int).toNat
        ((PyList.new s0 [2, 3]).1.objs.length + 1))[j]? ≠
        some ((PyList.new s0 [2, 3]).1.objs.length + 1)) :=
  claim_set_item_refcounts (PyList.new s0 [2, 3]).1 1 [2, 3] 1 0 42 2 ⟨.int 2, 1⟩ rfl
    (by decide) (by decide) (by decide) (by decide) (by decide) (by decide)

/-! ### Construction failure behaviour -/

/-- C9 counterexample: on an allocation-failure state the spec-side
construction (specListBuild, written from the spec's abandon-and-propagate
words) reports the error to the caller, while the code's construction runs
the per-element stores (whose status is -1 with the error indicator set),
ignores them, and returns a wrapper around the null handle with the error
indicator still set — nothing is propagated. -/
theorem claim_construction_error_propagates_cex :
    specListBuild sFail [2, 3] = (⟨[], none, [], true⟩, .error memoryError) ∧
    (PyList_SetItem (toPyInt (PyList_New sFail 2).1 2).1 (PyList_New sFail 2).2 (0 : Int)
        (toPyInt (PyList_New sFail 2).1 2).2).2 = -1 ∧
    PyList.new sFail [2, 3] = (⟨[], some systemError, [], true⟩, nullPtr) := by
  refine ⟨?_, ?_, ?_⟩ <;> rfl

theorem populate_fail : ∀ (elems : List Int) (s : PyState) (i : Nat),
    s.allocFail = true → s.errIndicator ≠ none →
    (populate s 0 i elems).errIndicator ≠ none ∧
      (populate s 0 i elems).allocFail = true := by
  intro elems
  induction elems with
  | nil => intro s i hF hE; exact ⟨hE, hF⟩
  | cons e rest ih =>
      intro s i hF hE
      have hstep : (PyList_SetItem (toPyInt s e).1 0 (i : Int) (toPyInt s e).2).1 =
          { s with errIndicator := some systemError } := by
        obtain ⟨o, er, ar, af⟩ := s
        simp only at hF
        subst hF
        simp [toPyInt, PyState.alloc, PyList_SetItem, PyState.lookup, PyState.decref,
          nullPtr]
      rw [populate_cons, hstep]
      exact ih _ (i + 1) hF (by simp)

/-- C9 amended: the code never abandons construction and never propagates a
construction failure — PyList::new returns exactly the raw allocation result
as the container (its type has no error channel and every per-element store
status is discarded), and on allocation failure it returns a wrapper around
the null handle leaving the error indicator set. -/
theorem claim_construction_error_ignored (s : PyState) (v : List Int) :
    (PyList.new s v).2 = (PyList_New s (v.length : Int)).2 ∧
    (s.allocFail = true →
      (PyList.new s v).2 = nullPtr ∧ (PyList.new s v).1.errIndicator ≠ none) := by
  constructor
  · rfl
  · intro hF
    have hN : PyList_New s (v.length : Int) =
        ({ s with errIndicator := some memoryError }, nullPtr) := by
      obtain ⟨o, er, ar, af⟩ := s
      simp only at hF
      subst hF
      have hge : ¬ (((v.length : Nat) : Int) < 0) := by omega
      simp [PyList_New, PyState.alloc, if_neg hge]
    constructor
    · show (PyList_New s (v.length : Int)).2 = nullPtr
      rw [hN]
    · show (populate (PyList_New s (v.length : Int)).1
        (PyList_New s (v.length : Int)).2 0 v).errIndicator ≠ none
      rw [hN]
      exact (populate_fail v { s with errIndicator := some memoryError } 0 hF
        (by simp)).1

theorem claim_construction_error_ignored_witness :
    (PyList.new sFail [2, 3]).2 = (PyList_New sFail (([2, 3] : List Int).length : Int)).2 ∧
    (sFail.allocFail = true →
      (PyList.new sFail [2, 3]).2 = nullPtr ∧
      (PyList.new sFail [2, 3]).1.errIndicator ≠ none) :=
  claim_construction_error_ignored sFail [2, 3]

/-- C10: the constructors treat a failed (null) allocation differently —
PyList::new and PyList::empty wrap the raw result without a null check and
hand back a wrapper around the null handle, while the slice and Vec
conversions go through the panicking wrapper, whose fatal path is the none
outcome. -/
theorem claim_alloc_failure_paths (s : PyState) (v : List Int)
    (hF : s.allocFail = true) :
    (PyList.new s v).2 = nullPtr ∧
    (PyList.empty s).2 = nullPtr ∧
    (sliceToObject s v).2 = none ∧
    (vecToObject s v).2 = none ∧
    (vecIntoObject s v).2 = none := by
  have hN : ∀ len : Nat, PyList_New s (len : Int) =
      ({ s with errIndicator := some memoryError }, nullPtr) := by
    intro len
    obtain ⟨o, er, ar, af⟩ := s
    simp only at hF
    subst hF
    have hge : ¬ (((len : Nat) : Int) < 0) := by omega
    simp [PyList_New, PyState.alloc, if_neg hge]
  refine ⟨?_, ?_, ?_, ?_, ?_⟩
  · show (PyList_New s (v.length : Int)).2 = nullPtr
    rw [hN]
  · show (PyList_New s ((0 : Nat) : Int)).2 = nullPtr
    rw [hN]
  · show (if (PyList_New s (v.length : Int)).2 = nullPtr then (none : Option Nat)
      else some ((PyList_New s (v.length : Int)).2)) = none
    rw [hN]
    simp
  · show (if (PyList_New s (v.length : Int)).2 = nullPtr then (none : Option Nat)
      else some ((PyList_New s (v.length : Int)).2)) = none
    rw [hN]
    simp
  · show (if (PyList_New s (v.length : Int)).2 = nullPtr then (none : Option Nat)
      else some ((PyList_New s (v.length : Int)).2)) = none
    rw [hN]
    simp

theorem claim_alloc_failure_paths_witness :
    (PyList.new sFail [2]).2 = nullPtr ∧
    (PyList.empty sFail).2 = nullPtr ∧
    (sliceToObject sFail [2]).2 = none ∧
    (vecToObject sFail [2]).2 = none ∧
    (vecIntoObject sFail [2]).2 = none :=
  claim_alloc_failure_paths sFail [2] rfl
